import Mathlib

/-!
Verification of xKern/Python-Utils against its specification.

The Python source (src/pyutils/__init__.py and src/pyutils/logging.py) is
shallowly embedded below: pure helpers become Lean functions, the stateful
`Logger` and the filesystem-backed `intervalcheck` become explicit state
passing over a small filesystem model, Python floats for timestamps become
rationals, and Python exceptions become `Except`.
-/

namespace PyUtils

/-- The `LogType` enumeration from both source files (identical definitions):
INFO = 0, ADD = 1, REMOVE = 2, WARNING = 3, ERROR = 4, DEBUG = 5. -/
inductive LogType
  | INFO
  | ADD
  | REMOVE
  | WARNING
  | ERROR
  | DEBUG
deriving DecidableEq, Repr

/-- `LogType.value`: the integer value of each enum member. -/
def LogType.value : LogType → Int
  | .INFO => 0
  | .ADD => 1
  | .REMOVE => 2
  | .WARNING => 3
  | .ERROR => 4
  | .DEBUG => 5

/-- The `logtype` argument of `log` has Python type `Union[LogType, int]`. -/
inductive Severity
  | ofType (t : LogType)
  | ofInt (i : Int)
deriving DecidableEq, Repr

/-- The body of `log` runs `if isinstance(logtype, LogType): logtype = logtype.value`,
after which `logtype` is the integer used for indexing. -/
def Severity.toIndex : Severity → Int
  | .ofType t => t.value
  | .ofInt i => i

/-- `symbols = ['*', '+', '-', '!', '#', '>', '<']` — the symbol table in
`log` (src/pyutils/__init__.py line 310) and `Logger.log`
(src/pyutils/logging.py line 57).  Note it has SEVEN entries. -/
def symbols : List String := ["*", "+", "-", "!", "#", ">", "<"]

/-- Python list indexing `xs[i]` for `i : Int`: a non-negative index reads
from the front, a negative index `i` reads `xs[len + i]`, and anything out
of range raises `IndexError`, modelled as `none`. -/
def pyListGet (xs : List String) (i : Int) : Option String :=
  if 0 ≤ i then
    xs.get? i.toNat
  else if 0 ≤ i + xs.length then
    xs.get? (i + xs.length).toNat
  else
    none

/-- `try: symbol = symbols[logtype] except Exception: symbol = '*'` —
the symbol lookup with its catch-all fallback, shared verbatim by
`log` and `Logger.log`. -/
def symbolFor (logtype : Int) : String :=
  (pyListGet symbols logtype).getD "*"

/-- The line built by the module-level `log` (src/pyutils/__init__.py
lines 310-321).  The thread name and caller name are runtime context in
Python (`threading.current_thread().name`, `sys._getframe(1).f_code.co_name`);
here they are passed as explicit arguments.  The function prints the line
without adding a newline (Python `print` adds its own). -/
def log (entry : String) (logtype : Severity) (show_caller show_thread : Bool)
    (threadName callerName : String) : String :=
  let symbol := symbolFor logtype.toIndex
  let thread_name := if show_thread then " [" ++ threadName ++ "]" else ""
  let func := if show_caller then " [" ++ callerName ++ "] -->" else ""
  "[" ++ symbol ++ "]" ++ thread_name ++ func ++ " " ++ entry

namespace Logger

/-- The line built by `Logger.log` (src/pyutils/logging.py lines 57-67):
same construction as the module-level `log`, with an explicit trailing
`"\n"` (it is written via `sys.stdout.write`, which adds nothing). -/
def logLine (entry : String) (logtype : Severity) (show_caller show_thread : Bool)
    (threadName callerName : String) : String :=
  let symbol := symbolFor logtype.toIndex
  let thread_name := if show_thread then " [" ++ threadName ++ "]" else ""
  let func := if show_caller then " [" ++ callerName ++ "] -->" else ""
  "[" ++ symbol ++ "]" ++ thread_name ++ func ++ " " ++ entry ++ "\n"

end Logger

/-! ### Filesystem model for the Logger and intervalcheck -/

/-- `rfind('/') + 1` on a character list: one past the index of the last
slash, `0` when there is none — the `i` of `posixpath.dirname`. -/
def rfindSlashIdx (l : List Char) : Nat :=
  match l.reverse.findIdx? (· = '/') with
  | some j => l.length - j
  | none => 0

/-- Strip trailing slashes (the `head.rstrip(sep)` of `posixpath.dirname`). -/
def dropTrailingSlashes (l : List Char) : List Char :=
  (l.reverse.dropWhile (· = '/')).reverse

/-- `os.path.dirname` (posix): `head = p[:p.rfind('/') + 1]`, then strip
trailing slashes unless `head` is empty or consists only of slashes. -/
def dirname (p : String) : String :=
  let head := p.data.take (rfindSlashIdx p.data)
  if head.any (· ≠ '/') then
    String.mk (dropTrailingSlashes head)
  else
    String.mk head

/-- Python exceptions that the modelled code can raise. -/
inductive PyErr
  | fileNotFound
  | isADirectory
  | valueErr
deriving DecidableEq, Repr

instance {e a : Type} [DecidableEq e] [DecidableEq a] : DecidableEq (Except e a) :=
  fun x y =>
    match x, y with
    | .ok x0, .ok y0 =>
      if h : x0 = y0 then .isTrue (by rw [h]) else .isFalse (by simp [h])
    | .error x0, .error y0 =>
      if h : x0 = y0 then .isTrue (by rw [h]) else .isFalse (by simp [h])
    | .ok _, .error _ => .isFalse (by simp)
    | .error _, .ok _ => .isFalse (by simp)

/-- Text files and directories: `files` is an association list from path to
current content, `dirs` the list of existing directories. -/
structure PyFS where
  files : List (String × String)
  dirs : List String
deriving DecidableEq, Repr

/-- Association-list lookup (first match wins), the map access used for
files, directories-as-sets and handle tables below. -/
def alookup {κ α : Type} [DecidableEq κ] : List (κ × α) → κ → Option α
  | [], _ => none
  | (k, v) :: tl, k0 => if k = k0 then some v else alookup tl k0

/-- `os.path.exists`: true when a file or a directory exists at `p`. -/
def PyFS.pathExists (fs : PyFS) (p : String) : Bool :=
  (alookup fs.files p).isSome || fs.dirs.contains p

/-- Append `s` to the content of the file at path `p`. -/
def updFile : List (String × String) → String → String → List (String × String)
  | [], _, _ => []
  | (k, v) :: tl, p, s =>
    if k = p then (k, v ++ s) :: updFile tl p s else (k, v) :: updFile tl p s

/-- File-handle events performed by `Logger`, in program order: used to
state in which order the setter opens and closes handles. -/
inductive FEvent
  | eopen (h : Nat) (path : String)
  | ewrite (h : Nat) (s : String)
  | eclose (h : Nat)
deriving DecidableEq, Repr

/-- The ambient state the Logger acts on: the filesystem, the set of open
(append-mode) handles with the path each is attached to, and a counter
supplying fresh handle ids. -/
structure LogSys where
  fs : PyFS
  openh : List (Nat × String)
  nextId : Nat
deriving DecidableEq, Repr

/-- `handle.write(s)`: append `s` to the file the open handle points at
(a write on a handle that is not open changes nothing here; the setter
only writes through the handle it just opened). -/
def LogSys.writeH (sys : LogSys) (h : Nat) (s : String) : LogSys :=
  match alookup sys.openh h with
  | some p => { sys with fs := { sys.fs with files := updFile sys.fs.files p s } }
  | none => sys

/-- The effect of one `FEvent` on the open-handle table, used to inspect
intermediate states of the setter. -/
def applyEvent (openh : List (Nat × String)) : FEvent → List (Nat × String)
  | .eopen h p => openh ++ [(h, p)]
  | .ewrite _ _ => openh
  | .eclose h => openh.filter (fun pr => pr.1 != h)

/-- Open-handle table after a prefix of events. -/
def openAfter (openh : List (Nat × String)) (evs : List FEvent) :
    List (Nat × String) :=
  evs.foldl applyEvent openh

/-- The state of a `Logger` instance (src/pyutils/logging.py lines 16-19):
`__log_path`, `__file` (here: the id of the handle it holds), and
`write_file`. -/
structure LoggerState where
  log_path : Option String
  file : Option Nat
  write_file : Bool
deriving DecidableEq, Repr

/-- `Logger.__init__`: `__log_path = None`, `__file = None`,
`write_file = False`. -/
def Logger.init : LoggerState := ⟨none, none, false⟩

/-- The separator written when appending to a pre-existing log file. -/
def sepLine : String := "\n---appending log---\n"

/-- The `log_file` setter (src/pyutils/logging.py lines 25-45), step by
step in source order: (1) if `path` does not exist, has a nonempty dirname
and that dirname does not exist, raise `FileNotFoundError`; (2) record
whether a file exists at `path`; (3) `open(path, 'a')` — create the file
empty if absent, allocate a fresh handle (`open` on a directory raises);
(4) if the file pre-existed, write the separator through the new handle;
(5) if the previously held handle is open, close it; (6) store the new
handle and path.  The returned event list records the order of the
open/write/close actions. -/
def setLogFile (sys : LogSys) (st : LoggerState) (path : String) :
    Except PyErr (LogSys × LoggerState × List FEvent) :=
  if ¬ sys.fs.pathExists path ∧ dirname path ≠ "" ∧ ¬ sys.fs.pathExists (dirname path) then
    .error .fileNotFound
  else if sys.fs.dirs.contains path then
    .error .isADirectory
  else
    let file_exists := (alookup sys.fs.files path).isSome
    let h := sys.nextId
    let fs1 := if file_exists then sys.fs
               else { sys.fs with files := sys.fs.files ++ [(path, "")] }
    let sys1 : LogSys := { fs := fs1, openh := sys.openh ++ [(h, path)], nextId := h + 1 }
    let sys2 := if file_exists then sys1.writeH h sepLine else sys1
    let evs2 := if file_exists then [FEvent.ewrite h sepLine] else []
    match st.file with
    | some h0 =>
      if (alookup sys2.openh h0).isSome then
        .ok ({ sys2 with openh := sys2.openh.filter (fun pr => pr.1 != h0) },
             { st with file := some h, log_path := some path },
             FEvent.eopen h path :: evs2 ++ [FEvent.eclose h0])
      else
        .ok (sys2, { st with file := some h, log_path := some path },
             FEvent.eopen h path :: evs2)
    | none =>
      .ok (sys2, { st with file := some h, log_path := some path },
           FEvent.eopen h path :: evs2)

/-- `Logger.log` as a state transition (src/pyutils/logging.py lines
47-70): build the line, write it to stdout (returned as the `String`
component), and `if self.__file: self.__file.write(line)` — a write on a
handle that was closed raises `ValueError` in Python. -/
def Logger.logRun (sys : LogSys) (st : LoggerState) (entry : String)
    (logtype : Severity) (show_caller show_thread : Bool)
    (threadName callerName : String) : Except PyErr (LogSys × String) :=
  let line := Logger.logLine entry logtype show_caller show_thread threadName callerName
  match st.file with
  | some h =>
    match alookup sys.openh h with
    | some p =>
      .ok ({ sys with fs := { sys.fs with files := updFile sys.fs.files p line } }, line)
    | none => .error .valueErr
  | none => .ok (sys, line)

/-! ### intervalcheck (src/pyutils/__init__.py lines 116-151) -/

/-- Marker filesystem: interval markers are empty files whose only payload
is the modification time (`time.time()` floats become rationals). -/
structure IntervalFS where
  files : List (String × ℚ)
  dirs : List String
deriving DecidableEq, Repr

/-- Overwrite the time stored for `p` (all occurrences). -/
def setAll : List (String × ℚ) → String → ℚ → List (String × ℚ)
  | [], _, _ => []
  | (k, v) :: tl, p, t =>
    if k = p then (k, t) :: setAll tl p t else (k, v) :: setAll tl p t

/-- Set the modification time of the marker at `p` to `t`, creating the
marker when absent — the effect of `open(path, 'w+')` plus writing `''`. -/
def updMtime (files : List (String × ℚ)) (p : String) (t : ℚ) :
    List (String × ℚ) :=
  if (alookup files p).isSome then setAll files p t else files ++ [(p, t)]

/-- `intervalcheck(key, duration, use_key_as_path, retouch)`, in source
order: resolve `dir`/`path` (the key itself when `use_key_as_path`, else
`intervalcheck/<key>`); `os.makedirs(dir, exist_ok=True)` — which raises
`FileNotFoundError` when `dir` is the empty string; if the marker exists,
`expired := now - mtime > duration`, otherwise `expired := True`; when
`expired and retouch`, rewrite the marker (setting its mtime to `now`) and
return `True`; otherwise return `expired`. -/
def intervalcheck (fs : IntervalFS) (now : ℚ) (key : String) (duration : Int)
    (use_key_as_path : Bool) (retouch : Bool) : Except PyErr (Bool × IntervalFS) :=
  let dir := if use_key_as_path then dirname key else "intervalcheck"
  let path := if use_key_as_path then key else "intervalcheck/" ++ key
  if dir = "" then
    .error .fileNotFound
  else
    let fs : IntervalFS :=
      { fs with dirs := if fs.dirs.contains dir then fs.dirs else fs.dirs ++ [dir] }
    let expired : Bool :=
      match alookup fs.files path with
      | some last_modified => decide ((duration : ℚ) < now - last_modified)
      | none => true
    if expired && retouch then
      .ok (true, { fs with files := updMtime fs.files path now })
    else
      .ok (expired, fs)

/-! ### human_readable_size (src/pyutils/__init__.py lines 324-349)

Python floats are modelled as exact rationals; on the sizes the claims
exercise every division and rounding step is exact in binary floating
point, so the rational model agrees with the float computation there. -/

/-- `units = ['bytes', 'KB', 'MB', 'GB', 'TB', 'PB']`. -/
def units : List String := ["bytes", "KB", "MB", "GB", "TB", "PB"]

/-- The `for index, unit in enumerate(units)` loop with its `break`:
starting from `(result, selected_unit) = (0, 'bytes')`, stop as soon as
`unit_size ** index > size`, otherwise set `result = size / divider` and
`selected_unit = unit` and continue. -/
def hrsScan (size unit_size : Int) : List String → Nat → ℚ × String → ℚ × String
  | [], _, acc => acc
  | unit :: rest, index, acc =>
    let divider := unit_size ^ index
    if size < divider then acc
    else hrsScan size unit_size rest (index + 1) ((size : ℚ) / (divider : ℚ), unit)

/-- Python `round(x)` to the nearest integer, ties to even (banker's
rounding), on an exact rational. -/
def roundHalfEven (q : ℚ) : Int :=
  if q - ⌊q⌋ < 1/2 then ⌊q⌋
  else if 1/2 < q - ⌊q⌋ then ⌊q⌋ + 1
  else if 2 ∣ ⌊q⌋ then ⌊q⌋ else ⌊q⌋ + 1

/-- Python `round(x, 2)` on an exact rational. -/
def pyRound2 (q : ℚ) : ℚ := (roundHalfEven (q * 100) : ℚ) / 100

/-- Python `int(x)`: truncation toward zero. -/
def pyInt (q : ℚ) : Int := if 0 ≤ q then ⌊q⌋ else ⌈q⌉

/-- `"%.2f" % q` for a rational that is an exact multiple of `1/100` (the
argument has already been rounded by `round(_, 2)`). -/
def twoDecRepr (q : ℚ) : String :=
  let m := roundHalfEven (q * 100)
  let ip := m / 100
  let fr := m % 100
  toString ip ++ "." ++ (if fr < 10 then "0" ++ toString fr else toString fr)

/-- `selected_unit.replace('B', 'iB')`: the pattern is a single character,
so substring replacement is character-wise here. -/
def replB (s : String) : String :=
  String.mk (s.data.map (fun c => if c = 'B' then ['i', 'B'] else [c])).flatten

/-- `human_readable_size(size, ib_unit)`: run the unit-selection loop,
apply the `iB` replacement when `ib_unit`, round to two decimals, and
format with `"%d"` when the rounded result is a whole number and `"%.2f"`
otherwise. -/
def human_readable_size (size : Int) (ib_unit : Bool) : String :=
  let unit_size : Int := if ib_unit then 1024 else 1000
  let rs := hrsScan size unit_size units 0 (0, "bytes")
  let selected_unit := if ib_unit then replB rs.2 else rs.2
  let result := pyRound2 rs.1
  if (pyInt result : ℚ) = result then
    toString (pyInt result) ++ " " ++ selected_unit
  else
    twoDecRepr result ++ " " ++ selected_unit

/-! ### Helper lemmas -/

/-- The symbol lookup falls back to `*` exactly outside Python's index
range for the 7-entry table: for `i ≥ 7` (IndexError) and for `i ≤ -8`
(IndexError); `i = -7` indexes entry 0, which is also `*`. -/
theorem symbolFor_fallback (i : Int) (h : 7 ≤ i ∨ i ≤ -7) : symbolFor i = "*" := by
  unfold symbolFor pyListGet symbols
  split
  · next h0 =>
    have h7 : (7 : Nat) ≤ i.toNat := by omega
    rw [List.get?_eq_none.mpr (by simpa using h7)]
    rfl
  · split
    · next h0 h1 =>
      have : i = -7 := by simp at h0 h1; omega
      subst this
      rfl
    · rfl

/-- Looking up `p` after appending `s` to the file at `p`. -/
theorem lookup_updFile (files : List (String × String)) (p s : String) :
    alookup (updFile files p s) p = (alookup files p).map (· ++ s) := by
  induction files with
  | nil => rfl
  | cons a tl ih =>
    obtain ⟨k, v⟩ := a
    by_cases hp : k = p
    · subst hp
      simp [updFile, alookup]
    · simpa [updFile, alookup, hp] using ih

/-- Looking up `p` after setting the marker at `p` to time `t`. -/
theorem lookup_updMtime (files : List (String × ℚ)) (p : String) (t : ℚ) :
    alookup (updMtime files p t) p = some t := by
  unfold updMtime
  split
  · next hs =>
    induction files with
    | nil => simp [alookup] at hs
    | cons a tl ih =>
      obtain ⟨k, v⟩ := a
      by_cases hp : k = p
      · subst hp
        simp [setAll, alookup]
      · have hs2 : (alookup tl p).isSome = true := by
          simpa [alookup, hp] using hs
        simpa [setAll, alookup, hp] using ih hs2
  · next hs =>
    induction files with
    | nil => simp [alookup]
    | cons a tl ih =>
      obtain ⟨k, v⟩ := a
      by_cases hp : k = p
      · subst hp
        simp [alookup] at hs
      · have hs2 : ¬ (alookup tl p).isSome = true := by
          simpa [alookup, hp] using hs
        simpa [alookup, hp] using ih hs2

/-! ### Claim theorems -/

/-- C1 (counterexample): severity 6 is not one of the six enumerated
`LogType` values, yet the emitted line is `[<] msg` — it does not start
with `[*]`, because the symbol table has a seventh entry `'<'` at index 6
and indexing succeeds. -/
theorem c1_counterexample :
    log "msg" (.ofInt 6) false false "" "" = "[<] msg" ∧
    (∀ t : LogType, t.value ≠ 6) ∧
    ¬ ∃ r : String, ("[<] msg" : String) = "[*]" ++ r := by
  refine ⟨by decide, by intro t; cases t <;> decide, ?_⟩
  rintro ⟨r, h⟩
  have h2 := congrArg String.data h
  rw [String.data_append] at h2
  simp at h2

/-- Every `log` line opens with the bracketed symbol selected for its
severity index. -/
theorem log_shape (e : String) (s : Severity) (c t : Bool) (tn cn : String) :
    log e s c t tn cn = "[" ++ symbolFor s.toIndex ++ "]" ++
      ((if t then " [" ++ tn ++ "]" else "") ++
        ((if c then " [" ++ cn ++ "] -->" else "") ++ (" " ++ e))) := by
  simp [log, String.append_assoc]

/-- Every `Logger.log` line opens with the bracketed symbol selected for
its severity index. -/
theorem logLine_shape (e : String) (s : Severity) (c t : Bool) (tn cn : String) :
    Logger.logLine e s c t tn cn = "[" ++ symbolFor s.toIndex ++ "]" ++
      ((if t then " [" ++ tn ++ "]" else "") ++
        ((if c then " [" ++ cn ++ "] -->" else "") ++ (" " ++ (e ++ "\n")))) := by
  simp [Logger.logLine, String.append_assoc]

/-- A line opening with a bracketed one-character symbol starts with
`[*]` precisely when that character is `*`. -/
theorem starts_ast_iff (sym rest : String) (c0 : Char) (hsym : sym.data = [c0]) :
    (∃ r : String, ("[" ++ sym ++ "]" ++ rest : String) = "[*]" ++ r) ↔ c0 = '*' := by
  constructor
  · rintro ⟨r, h⟩
    have h2 := congrArg String.data h
    simp only [String.data_append, hsym] at h2
    simp at h2
    exact h2.1
  · intro hc
    subst hc
    have hsym2 : sym = "*" := by
      cases sym
      cases hsym
      rfl
    refine ⟨rest, ?_⟩
    rw [hsym2, show ("[" ++ "*" ++ "]" : String) = "[*]" from rfl]

/-- For severities inside Python's index range of the seven-entry table
but distinct from every `LogType` value — that is, `6` and `-6..-1` — the
selected symbol is a single character other than `*`. -/
theorem symbolFor_inrange_ne (i : Int) (hnot : ∀ lt : LogType, lt.value ≠ i)
    (hlo : -6 ≤ i) (hhi : i ≤ 6) :
    ∃ c0 : Char, (symbolFor i).data = [c0] ∧ c0 ≠ '*' := by
  interval_cases i
  · exact ⟨'+', by decide, by decide⟩
  · exact ⟨'-', by decide, by decide⟩
  · exact ⟨'!', by decide, by decide⟩
  · exact ⟨'#', by decide, by decide⟩
  · exact ⟨'>', by decide, by decide⟩
  · exact ⟨'<', by decide, by decide⟩
  · exact absurd rfl (hnot .INFO)
  · exact absurd rfl (hnot .ADD)
  · exact absurd rfl (hnot .REMOVE)
  · exact absurd rfl (hnot .WARNING)
  · exact absurd rfl (hnot .ERROR)
  · exact absurd rfl (hnot .DEBUG)
  · exact ⟨'<', by decide, by decide⟩

/-- C1 (amended): for every integer severity that is not one of the six
enumerated `LogType` values, the log operation never raises (it is total
here, as the `except` clause catches everything) and always emits the
line `[symbol]...` for the symbol Python indexing selects; the line
starts with `[*]` exactly when the severity is outside Python's index
range of the seven-entry symbol table, i.e. `i ≥ 7` or `i ≤ -7` (at
`i = -7` negative indexing itself selects `*`); the in-range bad
severities `6` and `-6..-1` select other symbols, so their lines do not
start with `[*]`.  Both the module-level `log` and `Logger.log` behave
this way. -/
theorem c1_amended_fallback (e : String) (i : Int) (c t : Bool) (tn cn : String)
    (hnot : ∀ lt : LogType, lt.value ≠ i) :
    (∃ r, log e (.ofInt i) c t tn cn = "[" ++ symbolFor i ++ "]" ++ r) ∧
    (∃ r, Logger.logLine e (.ofInt i) c t tn cn = "[" ++ symbolFor i ++ "]" ++ r) ∧
    ((∃ r, log e (.ofInt i) c t tn cn = "[*]" ++ r) ↔ (7 ≤ i ∨ i ≤ -7)) ∧
    ((∃ r, Logger.logLine e (.ofInt i) c t tn cn = "[*]" ++ r) ↔ (7 ≤ i ∨ i ≤ -7)) := by
  refine ⟨⟨_, log_shape e (.ofInt i) c t tn cn⟩,
    ⟨_, logLine_shape e (.ofInt i) c t tn cn⟩, ?_, ?_⟩
  · by_cases hrange : (7 ≤ i ∨ i ≤ -7)
    · refine iff_of_true ?_ hrange
      rw [log_shape]
      show ∃ r, _ = _
      rw [show Severity.toIndex (.ofInt i) = i from rfl, symbolFor_fallback i hrange]
      exact ⟨_, by rw [show ("[" ++ "*" ++ "]" : String) = "[*]" from rfl]⟩
    · obtain ⟨c0, hc0, hne⟩ := symbolFor_inrange_ne i hnot (by omega) (by omega)
      refine iff_of_false ?_ hrange
      rw [log_shape]
      rw [show Severity.toIndex (.ofInt i) = i from rfl]
      rw [starts_ast_iff (symbolFor i) _ c0 hc0]
      exact hne
  · by_cases hrange : (7 ≤ i ∨ i ≤ -7)
    · refine iff_of_true ?_ hrange
      rw [logLine_shape]
      show ∃ r, _ = _
      rw [show Severity.toIndex (.ofInt i) = i from rfl, symbolFor_fallback i hrange]
      exact ⟨_, by rw [show ("[" ++ "*" ++ "]" : String) = "[*]" from rfl]⟩
    · obtain ⟨c0, hc0, hne⟩ := symbolFor_inrange_ne i hnot (by omega) (by omega)
      refine iff_of_false ?_ hrange
      rw [logLine_shape]
      rw [show Severity.toIndex (.ofInt i) = i from rfl]
      rw [starts_ast_iff (symbolFor i) _ c0 hc0]
      exact hne

/-- C1 (witness): severity 17 (the spec's own example) is not a `LogType`
value and falls in the fallback range, so both entry points emit `[*]`. -/
theorem c1_amended_fallback_witness :
    (∃ r, log "msg" (.ofInt 17) false false "" "" = "[" ++ symbolFor 17 ++ "]" ++ r) ∧
    (∃ r, Logger.logLine "msg" (.ofInt 17) false false "" "" =
      "[" ++ symbolFor 17 ++ "]" ++ r) ∧
    ((∃ r, log "msg" (.ofInt 17) false false "" "" = "[*]" ++ r) ↔
      (7 ≤ (17 : Int) ∨ (17 : Int) ≤ -7)) ∧
    ((∃ r, Logger.logLine "msg" (.ofInt 17) false false "" "" = "[*]" ++ r) ↔
      (7 ≤ (17 : Int) ∨ (17 : Int) ≤ -7)) :=
  c1_amended_fallback "msg" 17 false false "" "" (by intro lt; cases lt <;> decide)

/-- C9: for equal inputs and equal thread/caller context, `Logger.log`
builds exactly the module-level `log` line plus a trailing newline, and
appends that same line to the configured log file. -/
theorem c9_log_refinement (e : String) (lt : Severity) (sc sh : Bool)
    (tn cn : String) :
    Logger.logLine e lt sc sh tn cn = log e lt sc sh tn cn ++ "\n" ∧
    (∀ (sys : LogSys) (st : LoggerState) (hdl : Nat) (p c : String),
      st.file = some hdl → alookup sys.openh hdl = some p →
      alookup sys.fs.files p = some c →
      ∃ sys2, Logger.logRun sys st e lt sc sh tn cn =
          .ok (sys2, log e lt sc sh tn cn ++ "\n") ∧
        alookup sys2.fs.files p = some (c ++ (log e lt sc sh tn cn ++ "\n"))) := by
  constructor
  · rfl
  · intro sys st hdl p c hst hh hp
    refine ⟨{ sys with fs := { sys.fs with
      files := updFile sys.fs.files p (Logger.logLine e lt sc sh tn cn) } }, ?_, ?_⟩
    · simp only [Logger.logRun, hst, hh]
      rfl
    · simp only [lookup_updFile, hp, Option.map_some]
      rfl

/-- C9 (witness): a concrete logger with an open handle on `a.log`. -/
theorem c9_log_refinement_witness :
    ∃ sys2, Logger.logRun ⟨⟨[("a.log", "c0")], []⟩, [(0, "a.log")], 1⟩
        ⟨some "a.log", some 0, false⟩ "msg" (.ofType .ERROR) false false "T" "f" =
        .ok (sys2, log "msg" (.ofType .ERROR) false false "T" "f" ++ "\n") ∧
      alookup sys2.fs.files "a.log" =
        some ("c0" ++ (log "msg" (.ofType .ERROR) false false "T" "f" ++ "\n")) :=
  (c9_log_refinement "msg" (.ofType .ERROR) false false "T" "f").2
    ⟨⟨[("a.log", "c0")], []⟩, [(0, "a.log")], 1⟩
    ⟨some "a.log", some 0, false⟩ 0 "a.log" "c0" rfl (by decide) (by decide)

/-- C10: with `use_key_as_path = true` and a key with empty dirname, the
call raises `FileNotFoundError` from `os.makedirs('')` — for every
filesystem state, in particular before any marker existence or timestamp
check could matter. -/
theorem c10_empty_dirname_error (fs : IntervalFS) (now : ℚ) (key : String)
    (duration : Int) (retouch : Bool) (h : dirname key = "") :
    intervalcheck fs now key duration true retouch = .error .fileNotFound := by
  unfold intervalcheck
  simp [h]

/-- C10 (witness): key `marker` has no directory component. -/
theorem c10_empty_dirname_error_witness :
    intervalcheck ⟨[("marker", 0)], []⟩ 3 "marker" 5 true true =
      .error .fileNotFound :=
  c10_empty_dirname_error ⟨[("marker", 0)], []⟩ 3 "marker" 5 true (by decide)

/-- Unfolding of `intervalcheck` in the default (`use_key_as_path = false`)
mode: the directory is the constant `intervalcheck`, so `makedirs` cannot
fail. -/
theorem intervalcheck_false_eq (fs : IntervalFS) (now : ℚ) (key : String)
    (dur : Int) (r : Bool) :
    intervalcheck fs now key dur false r =
      (let path := "intervalcheck/" ++ key
       let fsD : IntervalFS :=
         { fs with dirs := if fs.dirs.contains "intervalcheck" then fs.dirs
                           else fs.dirs ++ ["intervalcheck"] }
       let expired : Bool :=
         match alookup fs.files path with
         | some m => decide ((dur : ℚ) < now - m)
         | none => true
       if expired && r then .ok (true, { fsD with files := updMtime fs.files path now })
       else .ok (expired, fsD)) := by
  simp [intervalcheck]

/-- C5: with the default path mode, `intervalcheck` returns `true` iff
the marker does not exist or `now - mtime > duration` (strictly); the
returned state supports the two particular cases of the claim: a fresh
key's first call returns `true`, and an immediate second call (same
`now`) after a retouching expired call returns `false` for any
non-negative duration. -/
theorem c5_intervalcheck_expiry (fs : IntervalFS) (now : ℚ) (key : String)
    (duration : Int) (retouch : Bool) :
    ∃ b fs2, intervalcheck fs now key duration false retouch = .ok (b, fs2) ∧
      (b = true ↔ (alookup fs.files ("intervalcheck/" ++ key) = none ∨
        ∃ m, alookup fs.files ("intervalcheck/" ++ key) = some m ∧
          (duration : ℚ) < now - m)) ∧
      (retouch = true → b = true →
        ∀ dur2 : Int, 0 ≤ dur2 →
          ∃ fs3, intervalcheck fs2 now key dur2 false true = .ok (false, fs3)) := by
  have second : ∀ fs2 : IntervalFS,
      alookup fs2.files ("intervalcheck/" ++ key) = some now →
      ∀ dur2 : Int, 0 ≤ dur2 →
      ∃ fs3, intervalcheck fs2 now key dur2 false true = .ok (false, fs3) := by
    intro fs2 hl dur2 hdur2
    refine ⟨⟨fs2.files, if fs2.dirs.contains "intervalcheck" then fs2.dirs
      else fs2.dirs ++ ["intervalcheck"]⟩, ?_⟩
    rw [intervalcheck_false_eq]
    simp only [hl]
    have h0 : ¬ dur2 < 0 := by omega
    simp [h0]
  set D := if fs.dirs.contains "intervalcheck" then fs.dirs
    else fs.dirs ++ ["intervalcheck"] with hD
  cases hm : alookup fs.files ("intervalcheck/" ++ key) with
  | none =>
    cases retouch with
    | true =>
      refine ⟨true, ⟨updMtime fs.files ("intervalcheck/" ++ key) now, D⟩,
        by rw [intervalcheck_false_eq]; simp [hm, hD], by simp [hm], ?_⟩
      intro _ _ dur2 hdur2
      exact second _ (lookup_updMtime _ _ _) dur2 hdur2
    | false =>
      exact ⟨true, ⟨fs.files, D⟩,
        by rw [intervalcheck_false_eq]; simp [hm, hD], by simp [hm], by simp⟩
  | some m =>
    by_cases hlt : (duration : ℚ) < now - m
    · cases retouch with
      | true =>
        refine ⟨true, ⟨updMtime fs.files ("intervalcheck/" ++ key) now, D⟩,
          by rw [intervalcheck_false_eq]; simp [hm, hlt, hD], ?_, ?_⟩
        · simp only [true_iff]
          exact Or.inr ⟨m, rfl, hlt⟩
        · intro _ _ dur2 hdur2
          exact second _ (lookup_updMtime _ _ _) dur2 hdur2
      | false =>
        refine ⟨true, ⟨fs.files, D⟩,
          by rw [intervalcheck_false_eq]; simp [hm, hlt, hD], ?_, by simp⟩
        simp only [true_iff]
        exact Or.inr ⟨m, rfl, hlt⟩
    · refine ⟨false, ⟨fs.files, D⟩,
        by rw [intervalcheck_false_eq]; simp [hm, hlt, hD], ?_, by simp⟩
      apply iff_of_false (by simp)
      rintro (h | ⟨m2, hm2, hlt2⟩)
      · exact Option.noConfusion h
      · rw [Option.some.injEq] at hm2
        exact hlt (hm2 ▸ hlt2)

/-- C5 (witness): fresh key `k`, `duration = 5`, `retouch = true`. -/
theorem c5_intervalcheck_expiry_witness :
    ∃ b fs2, intervalcheck ⟨[], []⟩ 0 "k" 5 false true = .ok (b, fs2) ∧
      (b = true ↔ (alookup (⟨[], []⟩ : IntervalFS).files ("intervalcheck/" ++ "k") = none ∨
        ∃ m, alookup (⟨[], []⟩ : IntervalFS).files ("intervalcheck/" ++ "k") = some m ∧
          ((5 : Int) : ℚ) < 0 - m)) ∧
      (true = true → b = true →
        ∀ dur2 : Int, 0 ≤ dur2 →
          ∃ fs3, intervalcheck fs2 0 "k" dur2 false true = .ok (false, fs3)) :=
  c5_intervalcheck_expiry ⟨[], []⟩ 0 "k" 5 true

/-- C6: a call of `intervalcheck` with `retouch = false` leaves the marker
map — existence and modification times of every marker — unchanged. -/
theorem c6_retouch_false_frame (fs : IntervalFS) (now : ℚ) (key : String)
    (duration : Int) (u : Bool) (b : Bool) (fs2 : IntervalFS)
    (h : intervalcheck fs now key duration u false = .ok (b, fs2)) :
    fs2.files = fs.files := by
  cases u with
  | false =>
    simp [intervalcheck] at h
    rw [← h.2]
  | true =>
    by_cases hk : dirname key = ""
    · simp [intervalcheck, hk] at h
    · simp [intervalcheck, hk] at h
      rw [← h.2]

/-- C6 (witness): a concrete non-retouching call on an existing marker. -/
theorem c6_retouch_false_frame_witness :
    ({ files := [("intervalcheck/k", 0)], dirs := ["intervalcheck"] } : IntervalFS).files =
      ({ files := [("intervalcheck/k", 0)], dirs := ["intervalcheck"] } : IntervalFS).files :=
  c6_retouch_false_frame ⟨[("intervalcheck/k", 0)], ["intervalcheck"]⟩ 10 "k" 5 false true
    ⟨[("intervalcheck/k", 0)], ["intervalcheck"]⟩
    (by simp [intervalcheck, alookup]; norm_num)

/-! ### Logger file-lifecycle claims -/

/-- A list whose first projections form a one-element list is a pair. -/
theorem map_fst_singleton {l : List (Nat × String)} {a : Nat}
    (h : l.map Prod.fst = [a]) : ∃ b, l = [(a, b)] := by
  cases l with
  | nil => simp at h
  | cons x tl =>
    obtain ⟨k, v⟩ := x
    simp at h
    obtain ⟨hk, htl⟩ := h
    exact ⟨v, by rw [hk, htl]⟩

/-- Lookup after appending a fresh entry at the back. -/
theorem alookup_append_of_none {α : Type} (l : List (String × α)) (p : String) (v : α)
    (h : alookup l p = none) : alookup (l ++ [(p, v)]) p = some v := by
  induction l with
  | nil => simp [alookup]
  | cons a tl ih =>
    obtain ⟨k, w⟩ := a
    by_cases hp : k = p
    · simp [alookup, hp] at h
    · simp only [List.cons_append, alookup, hp, if_false] at h ⊢
      exact ih h

/-- The invariant of a quiescent `Logger`: its open-handle table holds
exactly the handle the logger's `__file` refers to, and every open handle
id is below the fresh-id counter. -/
def LoggerInv (sys : LogSys) (st : LoggerState) : Prop :=
  sys.openh.map Prod.fst = st.file.toList ∧ ∀ pr ∈ sys.openh, pr.1 < sys.nextId

/-- Full characterisation of a successful `log_file` assignment: the new
handle is `sys.nextId`, attached to `path`; the file gains the separator
when it pre-existed and is created empty otherwise; the event trace is
`open` first, then the separator write, then the close of the old
handle. -/
theorem setLogFile_spec (sys : LogSys) (st : LoggerState) (path : String)
    (hinv1 : sys.openh.map Prod.fst = st.file.toList)
    (hinv2 : ∀ pr ∈ sys.openh, pr.1 < sys.nextId)
    (hex : ¬ (¬ sys.fs.pathExists path ∧ dirname path ≠ "" ∧
      ¬ sys.fs.pathExists (dirname path)))
    (hdir : sys.fs.dirs.contains path = false) :
    setLogFile sys st path = .ok
      (⟨⟨(if (alookup sys.fs.files path).isSome then updFile sys.fs.files path sepLine
          else sys.fs.files ++ [(path, "")]), sys.fs.dirs⟩,
        [(sys.nextId, path)], sys.nextId + 1⟩,
       ⟨some path, some sys.nextId, st.write_file⟩,
       FEvent.eopen sys.nextId path ::
         (if (alookup sys.fs.files path).isSome then [FEvent.ewrite sys.nextId sepLine]
          else []) ++
         (match st.file with | some h0 => [FEvent.eclose h0] | none => [])) := by
  unfold setLogFile
  rw [if_neg hex, if_neg (show ¬ (sys.fs.dirs.contains path = true) from by
    rw [hdir]; exact Bool.false_ne_true)]
  cases hst : st.file with
  | none =>
    have hopen : sys.openh = [] := by
      rw [hst] at hinv1
      simpa using hinv1
    cases hfe : (alookup sys.fs.files path).isSome with
    | true => simp [hst, hopen, hfe, LogSys.writeH, alookup]
    | false => simp [hst, hopen, hfe]
  | some h0 =>
    rw [hst] at hinv1
    obtain ⟨p0, hopen⟩ := map_fst_singleton (by simpa using hinv1)
    have hh0 : h0 < sys.nextId := hinv2 (h0, p0) (by rw [hopen]; exact List.mem_singleton_self _)
    have hne : ¬ h0 = sys.nextId := by omega
    have hbne : (sys.nextId != h0) = true := by
      simp only [bne_iff_ne]
      omega
    cases hfe : (alookup sys.fs.files path).isSome with
    | true => simp [hst, hopen, hfe, LogSys.writeH, alookup, hne, List.filter, hbne]
    | false => simp [hst, hopen, hfe, alookup, hne, List.filter, hbne]

/-- C7: assigning a path whose parent directory component is nonempty and
does not exist raises `FileNotFoundError` (so no file is created and no
state is returned). -/
theorem c7_missing_parent_error (sys : LogSys) (st : LoggerState) (path : String)
    (h1 : dirname path ≠ "") (h2 : sys.fs.pathExists (dirname path) = false)
    (h3 : sys.fs.pathExists path = false) :
    setLogFile sys st path = .error .fileNotFound := by
  unfold setLogFile
  rw [if_pos ⟨by rw [h3]; exact Bool.false_ne_true, h1,
    by rw [h2]; exact Bool.false_ne_true⟩]

/-- C7 (witness): parent `missing` does not exist in an empty
filesystem. -/
theorem c7_missing_parent_error_witness :
    setLogFile ⟨⟨[], []⟩, [], 0⟩ Logger.init "missing/a.log" = .error .fileNotFound :=
  c7_missing_parent_error ⟨⟨[], []⟩, [], 0⟩ Logger.init "missing/a.log"
    (by decide) (by decide) (by decide)

/-- C2 (counterexample): reassigning the log file of a logger holding an
open handle performs `open` of the new file BEFORE `close` of the old one
(the event trace is `[eopen 1 "b.log", eclose 0]`), and right after the
open both handles are open at once — so the setter does not close the
previous handle before opening the new one and the one-open-handle
invariant is violated during the assignment. -/
theorem c2_counterexample :
    setLogFile ⟨⟨[("a.log", "x")], []⟩, [(0, "a.log")], 1⟩
        ⟨some "a.log", some 0, false⟩ "b.log" =
      .ok (⟨⟨[("a.log", "x"), ("b.log", "")], []⟩, [(1, "b.log")], 2⟩,
           ⟨some "b.log", some 1, false⟩,
           [FEvent.eopen 1 "b.log", FEvent.eclose 0]) ∧
    openAfter [(0, "a.log")] [FEvent.eopen 1 "b.log"] = [(0, "a.log"), (1, "b.log")] ∧
    (openAfter [(0, "a.log")] [FEvent.eopen 1 "b.log"]).length = 2 := by
  refine ⟨by decide, by decide, by decide⟩

/-- C2 (amended): once an assignment completes, exactly one handle — the
newly opened one — remains open, and the logger refers to it; the
quiescent one-open-handle invariant is preserved, although during the
assignment the new file is opened before the old handle is closed. -/
theorem c2_amended_single_open_handle (sys : LogSys) (st : LoggerState) (path : String)
    (sys2 : LogSys) (st2 : LoggerState) (evs : List FEvent)
    (hinv : LoggerInv sys st)
    (h : setLogFile sys st path = .ok (sys2, st2, evs)) :
    sys2.openh = [(sys.nextId, path)] ∧ st2.file = some sys.nextId ∧
      LoggerInv sys2 st2 := by
  by_cases hex : (¬ sys.fs.pathExists path ∧ dirname path ≠ "" ∧
      ¬ sys.fs.pathExists (dirname path))
  · rw [setLogFile, if_pos hex] at h
    cases h
  · by_cases hdir : sys.fs.dirs.contains path = true
    · rw [setLogFile, if_neg hex, if_pos hdir] at h
      cases h
    · have hdir2 : sys.fs.dirs.contains path = false := by
        rwa [Bool.not_eq_true] at hdir
      rw [setLogFile_spec sys st path hinv.1 hinv.2 hex hdir2] at h
      simp only [Except.ok.injEq, Prod.mk.injEq] at h
      obtain ⟨hsys, hst, -⟩ := h
      refine ⟨by rw [← hsys], by rw [← hst], ?_, ?_⟩
      · rw [← hsys, ← hst]
        simp
      · rw [← hsys]
        intro pr hpr
        simp at hpr
        simp [hpr]

/-- C2 (witness): the reassignment scenario of the counterexample ends
with only the new handle open. -/
theorem c2_amended_single_open_handle_witness :
    (⟨⟨[("a.log", "x"), ("b.log", "")], []⟩, [(1, "b.log")], 2⟩ : LogSys).openh =
        [(1, "b.log")] ∧
      (⟨some "b.log", some 1, false⟩ : LoggerState).file = some 1 ∧
      LoggerInv ⟨⟨[("a.log", "x"), ("b.log", "")], []⟩, [(1, "b.log")], 2⟩
        ⟨some "b.log", some 1, false⟩ :=
  c2_amended_single_open_handle ⟨⟨[("a.log", "x")], []⟩, [(0, "a.log")], 1⟩
    ⟨some "a.log", some 0, false⟩ "b.log"
    ⟨⟨[("a.log", "x"), ("b.log", "")], []⟩, [(1, "b.log")], 2⟩
    ⟨some "b.log", some 1, false⟩ [FEvent.eopen 1 "b.log", FEvent.eclose 0]
    ⟨by decide, by decide⟩ (by decide)

/-- C4 (counterexample): after a successful assignment to `log_file` on a
fresh logger the handle is open, yet `write_file` is still `false` — the
flag does not mirror the handle state and is not set to true by the
setter. -/
theorem c4_counterexample :
    setLogFile ⟨⟨[], []⟩, [], 0⟩ Logger.init "a.log" =
      .ok (⟨⟨[("a.log", "")], []⟩, [(0, "a.log")], 1⟩,
           ⟨some "a.log", some 0, false⟩, [FEvent.eopen 0 "a.log"]) ∧
    (⟨some "a.log", some 0, false⟩ : LoggerState).write_file = false ∧
    alookup [(0, "a.log")] 0 = some "a.log" := by
  refine ⟨by decide, rfl, by decide⟩

/-- C4 (amended): `write_file` is initialised to `false` and the
`log_file` setter never modifies it (so it stays `false` forever and does
not track whether a handle is open). -/
theorem c4_amended_write_file_constant :
    Logger.init.write_file = false ∧
    ∀ (sys : LogSys) (st : LoggerState) (path : String) (sys2 : LogSys)
      (st2 : LoggerState) (evs : List FEvent),
      setLogFile sys st path = .ok (sys2, st2, evs) → st2.write_file = st.write_file := by
  refine ⟨rfl, ?_⟩
  intro sys st path sys2 st2 evs h
  by_cases hex : (¬ sys.fs.pathExists path ∧ dirname path ≠ "" ∧
      ¬ sys.fs.pathExists (dirname path))
  · rw [setLogFile, if_pos hex] at h
    cases h
  · by_cases hdir : sys.fs.dirs.contains path = true
    · rw [setLogFile, if_neg hex, if_pos hdir] at h
      cases h
    · rw [setLogFile, if_neg hex,
        if_neg (show ¬ (sys.fs.dirs.contains path = true) from hdir)] at h
      cases hst : st.file with
      | none =>
        simp only [hst] at h
        split at h <;>
          (simp only [Except.ok.injEq, Prod.mk.injEq] at h
           obtain ⟨-, hst2, -⟩ := h
           rw [← hst2])
      | some h0 =>
        simp only [hst] at h
        split at h <;> split at h <;>
          (simp only [Except.ok.injEq, Prod.mk.injEq] at h
           obtain ⟨-, hst2, -⟩ := h
           rw [← hst2])

/-- C4 (witness): the setter run of the counterexample leaves
`write_file` at its initial value. -/
theorem c4_amended_write_file_constant_witness :
    (⟨some "a.log", some 0, false⟩ : LoggerState).write_file =
      Logger.init.write_file :=
  c4_amended_write_file_constant.2 ⟨⟨[], []⟩, [], 0⟩ Logger.init "a.log"
    ⟨⟨[("a.log", "")], []⟩, [(0, "a.log")], 1⟩ ⟨some "a.log", some 0, false⟩
    [FEvent.eopen 0 "a.log"] (by decide)

/-- C8: when a file already exists at the assigned path, the setter
appends the separator `---appending log---` to it, the separator write is
among the setter's events, and any subsequent `Logger.log` entry lands
after the separator; when no file existed, the file is created empty and
no write event occurs during the assignment. -/
theorem c8_separator_on_existing (sys : LogSys) (st : LoggerState) (path : String)
    (hinv : LoggerInv sys st)
    (hdir : sys.fs.dirs.contains path = false) :
    (∀ c, alookup sys.fs.files path = some c →
      ∃ sys2 st2 evs, setLogFile sys st path = .ok (sys2, st2, evs) ∧
        alookup sys2.fs.files path = some (c ++ sepLine) ∧
        FEvent.ewrite sys.nextId sepLine ∈ evs ∧
        (∀ e lt sc sh tn cn sys3 line,
          Logger.logRun sys2 st2 e lt sc sh tn cn = .ok (sys3, line) →
          alookup sys3.fs.files path = some (c ++ sepLine ++ line))) ∧
    (alookup sys.fs.files path = none →
      (dirname path = "" ∨ sys.fs.pathExists (dirname path) = true) →
      ∃ sys2 st2 evs, setLogFile sys st path = .ok (sys2, st2, evs) ∧
        alookup sys2.fs.files path = some "" ∧
        (∀ hw s, FEvent.ewrite hw s ∉ evs)) := by
  constructor
  · intro c hc
    have hex : ¬ (¬ sys.fs.pathExists path ∧ dirname path ≠ "" ∧
        ¬ sys.fs.pathExists (dirname path)) := by
      rintro ⟨ha, -, -⟩
      exact ha (by simp [PyFS.pathExists, hc])
    have hfe : (alookup sys.fs.files path).isSome = true := by rw [hc]; rfl
    refine ⟨_, _, _, setLogFile_spec sys st path hinv.1 hinv.2 hex hdir, ?_, ?_, ?_⟩
    · simp [hc, lookup_updFile]
    · simp [hc]
    · intro e lt sc sh tn cn sys3 line hlr
      simp only [Logger.logRun, alookup, if_pos rfl, ite_true, reduceIte] at hlr
      simp only [Except.ok.injEq, Prod.mk.injEq] at hlr
      obtain ⟨hsys3, hline⟩ := hlr
      rw [← hsys3, ← hline]
      simp [hc, lookup_updFile]
  · intro hc hpar
    have hex : ¬ (¬ sys.fs.pathExists path ∧ dirname path ≠ "" ∧
        ¬ sys.fs.pathExists (dirname path)) := by
      rintro ⟨-, hb, hd⟩
      rcases hpar with hp | hp
      · exact hb hp
      · exact hd hp
    have hfe : (alookup sys.fs.files path).isSome = false := by rw [hc]; rfl
    refine ⟨_, _, _, setLogFile_spec sys st path hinv.1 hinv.2 hex hdir, ?_, ?_⟩
    · simp only [hc, Option.isSome_none, Bool.false_eq_true, if_false]
      exact alookup_append_of_none sys.fs.files path "" hc
    · intro hw s
      simp only [hc, Option.isSome_none, Bool.false_eq_true, if_false,
        List.nil_append]
      cases st.file <;> simp

/-- C8 (witness): assigning `c.log` (existing, content `old`) appends the
separator. -/
theorem c8_separator_on_existing_witness :
    ∃ sys2 st2 evs,
      setLogFile ⟨⟨[("c.log", "old")], []⟩, [], 0⟩ Logger.init "c.log" =
        .ok (sys2, st2, evs) ∧
      alookup sys2.fs.files "c.log" = some ("old" ++ sepLine) ∧
      FEvent.ewrite 0 sepLine ∈ evs ∧
      (∀ e lt sc sh tn cn sys3 line,
        Logger.logRun sys2 st2 e lt sc sh tn cn = .ok (sys3, line) →
        alookup sys3.fs.files "c.log" = some ("old" ++ sepLine ++ line)) :=
  (c8_separator_on_existing ⟨⟨[("c.log", "old")], []⟩, [], 0⟩ Logger.init "c.log"
    ⟨rfl, by decide⟩ (by decide)).1 "old" (by decide)

/-! ### human_readable_size claims -/

/-- The unit-selection loop picks the largest index `i < 6` with
`unit_size ^ i ≤ size` (for positive sizes). -/
theorem c3_sel (size : Int) (ib : Bool) (hs : 1 ≤ size) :
    ∃ i : Nat, i < 6 ∧
      (if ib then (1024 : Int) else 1000) ^ i ≤ size ∧
      (∀ j : Nat, j < 6 → (if ib then (1024 : Int) else 1000) ^ j ≤ size → j ≤ i) ∧
      (hrsScan size (if ib then 1024 else 1000) units 0 (0, "bytes")).2 =
        units.getD i "" := by
  set u : Int := if ib then 1024 else 1000 with hu
  have hu1 : (1 : Int) < u := by
    rw [hu]; cases ib <;> norm_num
  have hmono : ∀ a b : Nat, a ≤ b → u ^ a ≤ u ^ b := fun a b hab =>
    pow_le_pow_right₀ (le_of_lt hu1) hab
  have hmax : ∀ k : Nat, size < u ^ k → ∀ j : Nat, u ^ j ≤ size → j < k := by
    intro k hk j hj
    by_contra hcon
    have : u ^ k ≤ u ^ j := hmono k j (by omega)
    omega
  simp only [hrsScan, units]
  split_ifs with h0 h1 h2 h3 h4 h5
  · rw [pow_zero] at h0; omega
  · exact ⟨0, by omega, by rw [pow_zero]; omega,
      fun j _ hj => by have := hmax 1 (by simpa using h1) j hj; omega, rfl⟩
  · exact ⟨1, by omega, by simpa using h1,
      fun j _ hj => by have := hmax 2 (by simpa using h2) j hj; omega, rfl⟩
  · exact ⟨2, by omega, by simpa using h2,
      fun j _ hj => by have := hmax 3 (by simpa using h3) j hj; omega, rfl⟩
  · exact ⟨3, by omega, by simpa using h3,
      fun j _ hj => by have := hmax 4 (by simpa using h4) j hj; omega, rfl⟩
  · exact ⟨4, by omega, by simpa using h4,
      fun j _ hj => by have := hmax 5 (by simpa using h5) j hj; omega, rfl⟩
  · exact ⟨5, by omega, by simpa using h5, fun j hj _ => by omega, rfl⟩

/-- C3 (counterexample): for 1500000 with decimal units the function
returns `"1.50 MB"` (Python's `"%.2f"` prints two decimals), not the
claimed `"1.5 MB"`. -/
theorem c3_counterexample :
    human_readable_size 1500000 false = "1.50 MB" ∧
    ("1.50 MB" : String) ≠ "1.5 MB" := by
  constructor
  · norm_num [human_readable_size, hrsScan, units, pyRound2, roundHalfEven, pyInt,
      twoDecRepr, replB]
    decide
  · decide

/-- C3 (amended): `human_readable_size` returns `"1 KB"` for 1000
(decimal), `"1 KiB"` for 1024 (binary), `"999 bytes"` for 999, and
`"1.50 MB"` (two decimals, not `"1.5 MB"`) for 1500000 decimal; and for
every positive size the loop selects the largest of the six units whose
threshold `unit_size ^ i` does not exceed the value. -/
theorem c3_amended_human_readable_size :
    human_readable_size 1000 false = "1 KB" ∧
    human_readable_size 1024 true = "1 KiB" ∧
    human_readable_size 999 false = "999 bytes" ∧
    human_readable_size 1500000 false = "1.50 MB" ∧
    (∀ size : Int, ∀ ib : Bool, 1 ≤ size →
      ∃ i : Nat, i < 6 ∧
        (if ib then (1024 : Int) else 1000) ^ i ≤ size ∧
        (∀ j : Nat, j < 6 → (if ib then (1024 : Int) else 1000) ^ j ≤ size → j ≤ i) ∧
        (hrsScan size (if ib then 1024 else 1000) units 0 (0, "bytes")).2 =
          units.getD i "") := by
  refine ⟨?_, ?_, ?_, ?_, ?_⟩
  · norm_num [human_readable_size, hrsScan, units, pyRound2, roundHalfEven, pyInt,
      twoDecRepr, replB]
    decide
  · norm_num [human_readable_size, hrsScan, units, pyRound2, roundHalfEven, pyInt,
      twoDecRepr, replB]
    decide
  · norm_num [human_readable_size, hrsScan, units, pyRound2, roundHalfEven, pyInt,
      twoDecRepr, replB]
    decide
  · norm_num [human_readable_size, hrsScan, units, pyRound2, roundHalfEven, pyInt,
      twoDecRepr, replB]
    decide
  · intro size ib hs
    exact c3_sel size ib hs

/-- C3 (witness): the selection property at 123456 binary. -/
theorem c3_amended_human_readable_size_witness :
    ∃ i : Nat, i < 6 ∧
      (if true then (1024 : Int) else 1000) ^ i ≤ 123456 ∧
      (∀ j : Nat, j < 6 → (if true then (1024 : Int) else 1000) ^ j ≤ 123456 → j ≤ i) ∧
      (hrsScan 123456 (if true then 1024 else 1000) units 0 (0, "bytes")).2 =
        units.getD i "" :=
  c3_amended_human_readable_size.2.2.2.2 123456 true (by norm_num)

end PyUtils
